/-
Verification of the flat-array containers of `bevy_flat_arrays`
(src/flat_array_2d.rs, src/flat_array_3d.rs).

The Rust code is shallowly embedded: `usize` values become `Nat`
(all quantities involved here are non-negative and the relevant
operations never overflow on the inputs considered), `Vec<T>` becomes
`List T`, the `T: Default` bound becomes `Inhabited T` with `default`,
and an operation that panics (a failed `assert!` or an out-of-bounds
`Vec` index) returns `none`.  Coordinates (`IVec2` / `IVec3` restricted
to their non-negative range, which is the range the `as usize` casts
preserve) are embedded as pairs / triples of `Nat`.  A borrowed
reference into the buffer is embedded by the raw offset of the slot it
points to, which is exactly the pointer identity the Rust reference has.
-/
import Mathlib

namespace FlatArrays

/-! ### 2D index mapper (src/flat_array_2d.rs) -/

/-- `pub fn get_1d_from_2d(width: usize, x: usize, y: usize) -> usize { width * x + y }` -/
def get_1d_from_2d (width x y : Nat) : Nat :=
  width * x + y

/-- `pub fn get_2d_from_1d(width: usize, i: usize) -> (usize, usize) { (i / width, i % width) }` -/
def get_2d_from_1d (width i : Nat) : Nat × Nat :=
  (i / width, i % width)

/-- `get_1d_from_2d_ivec2`: wrapper around `get_1d_from_2d` taking a coordinate pair. -/
def get_1d_from_2d_ivec2 (width : Nat) (v : Nat × Nat) : Nat :=
  get_1d_from_2d width v.1 v.2

/-- `get_2d_from_1d_ivec2`: wrapper around `get_2d_from_1d` returning a coordinate pair. -/
def get_2d_from_1d_ivec2 (width i : Nat) : Nat × Nat :=
  get_2d_from_1d width i

/-! ### 3D index mapper (src/flat_array_3d.rs) -/

/-- `get_1d_from_3d(max_x, max_y, x, y, z) = (z * max_x * max_y) + (y * max_x) + x` -/
def get_1d_from_3d (max_x max_y x y z : Nat) : Nat :=
  z * max_x * max_y + y * max_x + x

/-- `get_3d_from_1d(max_x, max_y, idx)`:
`z = idx / (max_x * max_y); idx2 = idx - z * max_x * max_y; y = idx2 / max_x; x = idx2 % max_x`. -/
def get_3d_from_1d (max_x max_y idx : Nat) : Nat × Nat × Nat :=
  let z := idx / (max_x * max_y)
  let idx2 := idx - z * max_x * max_y
  let y := idx2 / max_x
  let x := idx2 % max_x
  (x, y, z)

/-- `get_1d_from_3d_ivec3`: wrapper around `get_1d_from_3d` taking a coordinate triple. -/
def get_1d_from_3d_ivec3 (max_x max_y : Nat) (v : Nat × Nat × Nat) : Nat :=
  get_1d_from_3d max_x max_y v.1 v.2.1 v.2.2

/-- `get_3d_from_1d_ivec3`: wrapper around `get_3d_from_1d` returning a coordinate triple. -/
def get_3d_from_1d_ivec3 (max_x max_y idx : Nat) : Nat × Nat × Nat :=
  get_3d_from_1d max_x max_y idx

/-! ### Round-trip lemmas for the mappers -/

/-- The 2D mapper is a left inverse on the fundamental domain `y < width`. -/
theorem get_2d_from_1d_left_inverse (width x y : Nat) (hw : 0 < width) (hy : y < width) :
    get_2d_from_1d width (get_1d_from_2d width x y) = (x, y) := by
  unfold get_1d_from_2d get_2d_from_1d
  rw [Nat.mul_add_div hw, Nat.div_eq_of_lt hy, Nat.mul_add_mod, Nat.mod_eq_of_lt hy,
    Nat.add_zero]

/-- The 2D mapper is an exact right inverse for every index. -/
theorem get_1d_from_2d_right_inverse (width i : Nat) :
    get_1d_from_2d width (get_2d_from_1d width i).1 (get_2d_from_1d width i).2 = i := by
  unfold get_1d_from_2d get_2d_from_1d
  exact Nat.div_add_mod i width

/-- The 3D mapper round-trips on the fundamental domain `x < max_x`, `y < max_y`. -/
theorem get_3d_from_1d_left_inverse (mx my x y z : Nat) (hx : x < mx) (hy : y < my) :
    get_3d_from_1d mx my (get_1d_from_3d mx my x y z) = (x, y, z) := by
  have hP : 0 < mx * my := Nat.mul_pos (by omega) (by omega)
  have hr : y * mx + x < mx * my := by
    calc y * mx + x < y * mx + mx := by omega
      _ = (y + 1) * mx := by ring
      _ ≤ my * mx := Nat.mul_le_mul_right mx (by omega)
      _ = mx * my := Nat.mul_comm my mx
  have e1 : get_1d_from_3d mx my x y z = mx * my * z + (y * mx + x) := by
    unfold get_1d_from_3d; ring
  have e2 : (mx * my * z + (y * mx + x)) / (mx * my) = z := by
    rw [Nat.mul_add_div hP, Nat.div_eq_of_lt hr, Nat.add_zero]
  have e3 : mx * my * z + (y * mx + x) - z * mx * my = y * mx + x := by
    have h : mx * my * z = z * mx * my := by ring
    rw [h, Nat.add_sub_cancel_left]
  have e4 : (y * mx + x) / mx = y := by
    rw [Nat.add_comm, Nat.add_mul_div_right x y (by omega), Nat.div_eq_of_lt hx,
      Nat.zero_add]
  have e5 : (y * mx + x) % mx = x := by
    rw [Nat.add_comm, Nat.add_mul_mod_self_right, Nat.mod_eq_of_lt hx]
  unfold get_3d_from_1d
  rw [e1]
  dsimp only
  rw [e2, e3, e4, e5]

/-! ### `Vec::resize_with` (Rust standard library, as used by the containers) -/

/-- `Vec::resize_with(new_len, f)`: truncates when `new_len ≤ len`, otherwise appends
`new_len - len` freshly produced elements (here always `T::default()`). -/
def resizeWith {T : Type} (l : List T) (n : Nat) (d : T) : List T :=
  if n ≤ l.length then l.take n else l ++ List.replicate (n - l.length) d

/-! ### The 2D container `Array2d<T>` -/

/-- `pub struct Array2d<T> { width: usize, height: usize, array: Vec<T> }` -/
structure Array2d (T : Type) where
  width : Nat
  height : Nat
  array : List T
deriving DecidableEq

/-- `Array2d::len`: `self.width * self.height`. -/
def Array2d.len {T : Type} (a : Array2d T) : Nat :=
  a.width * a.height

/-- `Array2d::new(width, height)`: asserts both extents positive (`none` models the
panic), then fills a fresh buffer of `width * height` default elements. -/
def Array2d.new (T : Type) [Inhabited T] (width height : Nat) : Option (Array2d T) :=
  if 0 < width ∧ 0 < height then
    some { width := width, height := height, array := List.replicate (width * height) default }
  else none

/-- `Array2d::get(v)`: computes the offset, asserts `i < self.len()`, reads `array[i]`
(`none` models either panic). -/
def Array2d.get {T : Type} (a : Array2d T) (v : Nat × Nat) : Option T :=
  let i := get_1d_from_2d_ivec2 a.width v
  if i < a.len then a.array[i]? else none

/-- `Array2d::get_mut(v)`: same checks as `get`; the returned exclusive reference is
embedded by the raw offset of the slot it points to. -/
def Array2d.get_mut {T : Type} (a : Array2d T) (v : Nat × Nat) : Option Nat :=
  let i := get_1d_from_2d_ivec2 a.width v
  if i < a.len then (if i < a.array.length then some i else none) else none

/-- `Array2d::set(v, value)`: same checks, then `self.array[i] = value`. -/
def Array2d.set {T : Type} (a : Array2d T) (v : Nat × Nat) (value : T) : Option (Array2d T) :=
  let i := get_1d_from_2d_ivec2 a.width v
  if i < a.len then
    if i < a.array.length then some { a with array := a.array.set i value } else none
  else none

/-- `impl Index<usize> for Array2d`: asserts `index < self.len()`, reads `array[index]`. -/
def Array2d.index {T : Type} (a : Array2d T) (i : Nat) : Option T :=
  if i < a.len then a.array[i]? else none

/-- `Array2d::resize(width, heigth)`: stores the new extents (no validation!) and
calls `Vec::resize_with(width * heigth, T::default)`. -/
def Array2d.resize {T : Type} [Inhabited T] (a : Array2d T) (width heigth : Nat) : Array2d T :=
  { width := width, height := heigth, array := resizeWith a.array (width * heigth) default }

/-! ### The 3D container `Array3d<T>` -/

/-- `pub struct Array3d<T> { width: usize, height: usize, depth: usize, array: Vec<T> }` -/
structure Array3d (T : Type) where
  width : Nat
  height : Nat
  depth : Nat
  array : List T
deriving DecidableEq

/-- `Array3d::len`: `self.width * self.height * self.depth`. -/
def Array3d.len {T : Type} (a : Array3d T) : Nat :=
  a.width * a.height * a.depth

/-- `Array3d::new(width, height, depth)`: asserts all three extents positive, then
fills a fresh buffer of `width * height * depth` default elements. -/
def Array3d.new (T : Type) [Inhabited T] (width height depth : Nat) : Option (Array3d T) :=
  if 0 < width ∧ 0 < height ∧ 0 < depth then
    some { width := width, height := height, depth := depth,
           array := List.replicate (width * height * depth) default }
  else none

/-- `Array3d::get(v)`: offset via `get_1d_from_3d_ivec3(self.width, self.height, v)`,
asserts `i < self.len()`, reads `array[i]`. -/
def Array3d.get {T : Type} (a : Array3d T) (v : Nat × Nat × Nat) : Option T :=
  let i := get_1d_from_3d_ivec3 a.width a.height v
  if i < a.len then a.array[i]? else none

/-- `Array3d::get_mut(v)`: same checks; the exclusive reference is embedded by the
raw offset of its slot. -/
def Array3d.get_mut {T : Type} (a : Array3d T) (v : Nat × Nat × Nat) : Option Nat :=
  let i := get_1d_from_3d_ivec3 a.width a.height v
  if i < a.len then (if i < a.array.length then some i else none) else none

/-- `Array3d::set(v, value)`: same checks, then `self.array[i] = value`. -/
def Array3d.set {T : Type} (a : Array3d T) (v : Nat × Nat × Nat) (value : T) :
    Option (Array3d T) :=
  let i := get_1d_from_3d_ivec3 a.width a.height v
  if i < a.len then
    if i < a.array.length then some { a with array := a.array.set i value } else none
  else none

/-- `impl Index<usize> for Array3d`: asserts `index < self.len()`, reads `array[index]`. -/
def Array3d.index {T : Type} (a : Array3d T) (i : Nat) : Option T :=
  if i < a.len then a.array[i]? else none

/-- `Array3d::resize(width, heigth, depth)`: stores the new extents (no validation!)
and calls `Vec::resize_with(width * heigth * depth, T::default)`. -/
def Array3d.resize {T : Type} [Inhabited T] (a : Array3d T) (width heigth depth : Nat) :
    Array3d T :=
  { width := width, height := heigth, depth := depth,
    array := resizeWith a.array (width * heigth * depth) default }

/-! ### Iterators

Each Rust iterator is embedded as a state record plus a `next` step function.
A yielded item is `(coordinate, slot offset)`: the second component is the raw
offset of the buffer slot the yielded reference points to (pointer identity).
`run` collects all items produced by repeatedly calling `next`, using
`max - cursor` as structural fuel (each yielding step increases `cursor` by 1,
so the fuel is exact). -/

/-- `pub struct Array2dIter<'a, T> { items, cursor, max, width }` -/
structure Array2dIter (T : Type) where
  items : List T
  cursor : Nat
  max : Nat
  width : Nat

/-- `Array2dIter::next`: if `cursor ≥ max` yield nothing; otherwise post-increment
the cursor and yield `(get_2d_from_1d_ivec2(width, tmp), &items[tmp])` where `tmp`
is the pre-increment cursor. -/
def Array2dIter.next {T : Type} (it : Array2dIter T) :
    Option ((Nat × Nat) × Nat) × Array2dIter T :=
  let tmp := it.cursor
  if tmp ≥ it.max then (none, it)
  else
    let it' := { it with cursor := it.cursor + 1 }
    (some (get_2d_from_1d_ivec2 it.width tmp, tmp), it')

/-- `Array2d::iter`. -/
def Array2d.iter {T : Type} (a : Array2d T) : Array2dIter T :=
  { items := a.array, cursor := 0, max := a.len, width := a.width }

def Array2dIter.runAux {T : Type} : Nat → Array2dIter T → List ((Nat × Nat) × Nat)
  | 0, _ => []
  | fuel + 1, it =>
    match it.next with
    | (none, _) => []
    | (some x, it') => x :: Array2dIter.runAux fuel it'

/-- All items the iterator yields from its current state on. -/
def Array2dIter.run {T : Type} (it : Array2dIter T) : List ((Nat × Nat) × Nat) :=
  Array2dIter.runAux (it.max - it.cursor) it

/-- `pub struct Array2dMutIter<'a, T> { items, cursor, max, width }` -/
structure Array2dMutIter (T : Type) where
  items : List T
  cursor : Nat
  max : Nat
  width : Nat

/-- `Array2dMutIter::next`: the code increments `cursor` *before* the bounds check,
computes the coordinate from the *already incremented* cursor, and yields
`&mut *pt` with `pt = items.as_mut_ptr()`, i.e. a reference to the slot at raw
offset 0, on every call. -/
def Array2dMutIter.next {T : Type} (it : Array2dMutIter T) :
    Option ((Nat × Nat) × Nat) × Array2dMutIter T :=
  let tmp := it.cursor
  let it' := { it with cursor := it.cursor + 1 }
  if tmp ≥ it.max then (none, it')
  else
    (some (get_2d_from_1d_ivec2 it.width it'.cursor, 0), it')

/-- `Array2d::iter_mut`. -/
def Array2d.iter_mut {T : Type} (a : Array2d T) : Array2dMutIter T :=
  { items := a.array, cursor := 0, max := a.len, width := a.width }

def Array2dMutIter.runAux {T : Type} : Nat → Array2dMutIter T → List ((Nat × Nat) × Nat)
  | 0, _ => []
  | fuel + 1, it =>
    match it.next with
    | (none, _) => []
    | (some x, it') => x :: Array2dMutIter.runAux fuel it'

/-- All items the mutable iterator yields from its current state on. -/
def Array2dMutIter.run {T : Type} (it : Array2dMutIter T) : List ((Nat × Nat) × Nat) :=
  Array2dMutIter.runAux (it.max - it.cursor) it

/-- `pub struct Array3dIter<'a, T> { items, cursor, max, width, height }` -/
structure Array3dIter (T : Type) where
  items : List T
  cursor : Nat
  max : Nat
  width : Nat
  height : Nat

/-- `Array3dIter::next`: mirrors `Array2dIter::next` with the 3D inverse mapper. -/
def Array3dIter.next {T : Type} (it : Array3dIter T) :
    Option ((Nat × Nat × Nat) × Nat) × Array3dIter T :=
  let tmp := it.cursor
  if tmp ≥ it.max then (none, it)
  else
    let it' := { it with cursor := it.cursor + 1 }
    (some (get_3d_from_1d_ivec3 it.width it.height tmp, tmp), it')

/-- `Array3d::iter`. -/
def Array3d.iter {T : Type} (a : Array3d T) : Array3dIter T :=
  { items := a.array, cursor := 0, max := a.len, width := a.width, height := a.height }

def Array3dIter.runAux {T : Type} : Nat → Array3dIter T → List ((Nat × Nat × Nat) × Nat)
  | 0, _ => []
  | fuel + 1, it =>
    match it.next with
    | (none, _) => []
    | (some x, it') => x :: Array3dIter.runAux fuel it'

/-- All items the iterator yields from its current state on. -/
def Array3dIter.run {T : Type} (it : Array3dIter T) : List ((Nat × Nat × Nat) × Nat) :=
  Array3dIter.runAux (it.max - it.cursor) it

/-- `pub struct Array3dMutIter<'a, T> { items, cursor, max, width, height }` -/
structure Array3dMutIter (T : Type) where
  items : List T
  cursor : Nat
  max : Nat
  width : Nat
  height : Nat

/-- `Array3dMutIter::next`: same two slips as the 2D mutable iterator — the
coordinate comes from the post-incremented cursor and the reference is always
the buffer base pointer (slot 0). -/
def Array3dMutIter.next {T : Type} (it : Array3dMutIter T) :
    Option ((Nat × Nat × Nat) × Nat) × Array3dMutIter T :=
  let tmp := it.cursor
  let it' := { it with cursor := it.cursor + 1 }
  if tmp ≥ it.max then (none, it')
  else
    (some (get_3d_from_1d_ivec3 it.width it.height it'.cursor, 0), it')

/-- `Array3d::iter_mut`. -/
def Array3d.iter_mut {T : Type} (a : Array3d T) : Array3dMutIter T :=
  { items := a.array, cursor := 0, max := a.len, width := a.width, height := a.height }

def Array3dMutIter.runAux {T : Type} : Nat → Array3dMutIter T → List ((Nat × Nat × Nat) × Nat)
  | 0, _ => []
  | fuel + 1, it =>
    match it.next with
    | (none, _) => []
    | (some x, it') => x :: Array3dMutIter.runAux fuel it'

/-- All items the mutable iterator yields from its current state on. -/
def Array3dMutIter.run {T : Type} (it : Array3dMutIter T) : List ((Nat × Nat × Nat) × Nat) :=
  Array3dMutIter.runAux (it.max - it.cursor) it

/-! ### Helper lemmas -/

/-- An in-range coordinate (in the code's fundamental domain `x < height`,
`y < width`) maps to an offset below `width * height`. -/
theorem get_1d_from_2d_lt {w h x y : Nat} (hx : x < h) (hy : y < w) :
    get_1d_from_2d w x y < w * h := by
  unfold get_1d_from_2d
  calc w * x + y < w * x + w := by omega
    _ = w * (x + 1) := by ring
    _ ≤ w * h := Nat.mul_le_mul_left w (by omega)

/-- An in-range coordinate (`x < width`, `y < height`, `z < depth`) maps to an
offset below `width * height * depth`. -/
theorem get_1d_from_3d_lt {w h d x y z : Nat} (hx : x < w) (hy : y < h) (hz : z < d) :
    get_1d_from_3d w h x y z < w * h * d := by
  unfold get_1d_from_3d
  have h1 : y * w + x < w * h := by
    calc y * w + x < y * w + w := by omega
      _ = (y + 1) * w := by ring
      _ ≤ h * w := Nat.mul_le_mul_right w (by omega)
      _ = w * h := Nat.mul_comm h w
  calc z * w * h + y * w + x = z * (w * h) + (y * w + x) := by ring
    _ < z * (w * h) + w * h := Nat.add_lt_add_left h1 _
    _ = (z + 1) * (w * h) := by ring
    _ ≤ d * (w * h) := Nat.mul_le_mul_right (w * h) (by omega)
    _ = w * h * d := by ring

theorem resizeWith_length {T : Type} (l : List T) (n : Nat) (d : T) :
    (resizeWith l n d).length = n := by
  unfold resizeWith
  split
  · next hle => simp [List.length_take]; omega
  · next hgt => simp [List.length_append, List.length_replicate]; omega

theorem resizeWith_getElem?_keep {T : Type} (l : List T) (n : Nat) (d : T) (i : Nat)
    (h1 : i < l.length) (h2 : i < n) : (resizeWith l n d)[i]? = l[i]? := by
  unfold resizeWith
  split
  · rw [List.getElem?_take, if_pos h2]
  · rw [List.getElem?_append, if_pos h1]

theorem resizeWith_getElem?_new {T : Type} (l : List T) (n : Nat) (d : T) (i : Nat)
    (h1 : l.length ≤ i) (h2 : i < n) : (resizeWith l n d)[i]? = some d := by
  unfold resizeWith
  split
  · next hle => omega
  · next hgt =>
      rw [List.getElem?_append_right h1, List.getElem?_replicate, if_pos (by omega)]

/-- Characterization of the 2D immutable iterator: from a state with exact fuel,
the run is the range of remaining offsets, each paired with its inverse-mapped
coordinate and its own slot offset. -/
theorem Array2dIter.run2dAux_eq {T : Type} (n : Nat) :
    ∀ it : Array2dIter T, it.cursor + n = it.max →
      Array2dIter.runAux n it =
        (List.range' it.cursor n).map (fun i => (get_2d_from_1d it.width i, i)) := by
  induction n with
  | zero => intro it h; simp [Array2dIter.runAux]
  | succ n ih =>
      intro it h
      have hlt : ¬ it.cursor ≥ it.max := by omega
      simp only [Array2dIter.runAux, Array2dIter.next, hlt, if_false, List.range'_succ,
        List.map_cons, get_2d_from_1d_ivec2]
      exact List.cons_eq_cons.mpr ⟨rfl, ih _ (by simp; omega)⟩

theorem Array2dIter.run_iter2d {T : Type} (a : Array2d T) :
    (Array2d.iter a).run =
      (List.range a.len).map (fun i => (get_2d_from_1d a.width i, i)) := by
  unfold Array2dIter.run Array2d.iter
  rw [List.range_eq_range']
  exact Array2dIter.run2dAux_eq _ _ (by simp)

/-- Characterization of the 3D immutable iterator. -/
theorem Array3dIter.run3dAux_eq {T : Type} (n : Nat) :
    ∀ it : Array3dIter T, it.cursor + n = it.max →
      Array3dIter.runAux n it =
        (List.range' it.cursor n).map (fun i => (get_3d_from_1d it.width it.height i, i)) := by
  induction n with
  | zero => intro it h; simp [Array3dIter.runAux]
  | succ n ih =>
      intro it h
      have hlt : ¬ it.cursor ≥ it.max := by omega
      simp only [Array3dIter.runAux, Array3dIter.next, hlt, if_false, List.range'_succ,
        List.map_cons, get_3d_from_1d_ivec3]
      exact List.cons_eq_cons.mpr ⟨rfl, ih _ (by simp; omega)⟩

theorem Array3dIter.run_iter3d {T : Type} (a : Array3d T) :
    (Array3d.iter a).run =
      (List.range a.len).map (fun i => (get_3d_from_1d a.width a.height i, i)) := by
  unfold Array3dIter.run Array3d.iter
  rw [List.range_eq_range']
  exact Array3dIter.run3dAux_eq _ _ (by simp)

/-! ### Claim theorems -/

/-- C3, counterexample to the claim as stated: the claimed left inverse
`from_index(width, to_index(width, x, y)) = (x, y)` for *all* `x, y ≥ 0` fails at
`width = 2, x = 0, y = 2`: `to_index` gives offset `2` and `from_index` maps it
back to `(1, 0)`, not `(0, 2)`. -/
theorem mapper2d_left_inverse_fails :
    0 < 2 ∧ get_2d_from_1d 2 (get_1d_from_2d 2 0 2) ≠ ((0 : Nat), (2 : Nat)) := by
  decide

/-- C3 (amended): for every `width > 0`, `from_index(width, to_index(width, x, y))
= (x, y)` holds for all `x ≥ 0` and `y < width` (the fundamental domain of the
row layout), and `to_index(width, from_index(width, index)) = index` holds exactly
for every `index ≥ 0`. -/
theorem mapper2d_roundtrip :
    (∀ width x y : Nat, 0 < width → y < width →
      get_2d_from_1d width (get_1d_from_2d width x y) = (x, y)) ∧
    (∀ width i : Nat, 0 < width →
      get_1d_from_2d width (get_2d_from_1d width i).1 (get_2d_from_1d width i).2 = i) :=
  ⟨fun w x y hw hy => get_2d_from_1d_left_inverse w x y hw hy,
   fun w i _ => get_1d_from_2d_right_inverse w i⟩

/-- Witness for `mapper2d_roundtrip` at `width = 2, x = 1, y = 1` and `index = 3`. -/
theorem mapper2d_roundtrip_witness :
    (0 : Nat) < 2 ∧ (1 : Nat) < 2 ∧
    get_2d_from_1d 2 (get_1d_from_2d 2 1 1) = (1, 1) ∧
    get_1d_from_2d 2 (get_2d_from_1d 2 3).1 (get_2d_from_1d 2 3).2 = 3 :=
  ⟨by decide, by decide, mapper2d_roundtrip.1 2 1 1 (by decide) (by decide),
   mapper2d_roundtrip.2 2 3 (by decide)⟩

/-- C5: for all `max_x, max_y > 0`, `x < max_x`, `y < max_y` and any `z ≥ 0`,
`get_3d_from_1d(max_x, max_y, get_1d_from_3d(max_x, max_y, x, y, z)) = (x, y, z)`. -/
theorem mapper3d_roundtrip (mx my x y z : Nat) (_hmx : 0 < mx) (_hmy : 0 < my)
    (hx : x < mx) (hy : y < my) :
    get_3d_from_1d mx my (get_1d_from_3d mx my x y z) = (x, y, z) :=
  get_3d_from_1d_left_inverse mx my x y z hx hy

/-- Witness for `mapper3d_roundtrip` at `max_x = 4, max_y = 4, (x, y, z) = (3, 2, 5)`. -/
theorem mapper3d_roundtrip_witness :
    (0 : Nat) < 4 ∧ (3 : Nat) < 4 ∧ (2 : Nat) < 4 ∧
    get_3d_from_1d 4 4 (get_1d_from_3d 4 4 3 2 5) = (3, 2, 5) :=
  ⟨by decide, by decide, by decide,
   mapper3d_roundtrip 4 4 3 2 5 (by decide) (by decide) (by decide) (by decide)⟩

/-- C8: for every 2D or 3D container of length `N`, the immutable iterator yields
exactly `N` items; the item at position `i` of the run carries the coordinate
obtained from the inverse mapper at raw offset `i` together with a reference to
the slot at raw offset `i` (so raw offsets are visited in strictly increasing
order `0, 1, …, N-1`). -/
theorem immutable_iteration_coverage :
    (∀ (T : Type) (a : Array2d T),
      (Array2d.iter a).run = (List.range a.len).map (fun i => (get_2d_from_1d a.width i, i)) ∧
      (Array2d.iter a).run.length = a.len) ∧
    (∀ (T : Type) (a : Array3d T),
      (Array3d.iter a).run =
        (List.range a.len).map (fun i => (get_3d_from_1d a.width a.height i, i)) ∧
      (Array3d.iter a).run.length = a.len) :=
  ⟨fun T a => ⟨Array2dIter.run_iter2d a, by rw [Array2dIter.run_iter2d a]; simp⟩,
   fun T a => ⟨Array3dIter.run_iter3d a, by rw [Array3dIter.run_iter3d a]; simp⟩⟩

/-- C7: `new` fails fatally exactly when some extent is 0; otherwise it produces a
container whose `len` is the product of the extents, whose buffer holds exactly
`len` slots, every one of them the element type's default value. -/
theorem construct_defaults :
    (∀ (T : Type) [Inhabited T] (w h : Nat),
      ((w = 0 ∨ h = 0) → Array2d.new T w h = none) ∧
      (0 < w → 0 < h → ∃ a, Array2d.new T w h = some a ∧
        a.len = w * h ∧ a.array.length = a.len ∧
        ∀ i, i < a.len → a.array[i]? = some default)) ∧
    (∀ (T : Type) [Inhabited T] (w h d : Nat),
      ((w = 0 ∨ h = 0 ∨ d = 0) → Array3d.new T w h d = none) ∧
      (0 < w → 0 < h → 0 < d → ∃ a, Array3d.new T w h d = some a ∧
        a.len = w * h * d ∧ a.array.length = a.len ∧
        ∀ i, i < a.len → a.array[i]? = some default)) := by
  constructor
  · intro T _ w h
    constructor
    · intro hz
      unfold Array2d.new
      rw [if_neg (by omega)]
    · intro hw hh
      refine ⟨⟨w, h, List.replicate (w * h) default⟩, ?_, rfl, by simp [Array2d.len], ?_⟩
      · unfold Array2d.new
        rw [if_pos ⟨hw, hh⟩]
      · intro i hi
        rw [List.getElem?_replicate, if_pos (by simpa [Array2d.len] using hi)]
  · intro T _ w h d
    constructor
    · intro hz
      unfold Array3d.new
      rw [if_neg (by omega)]
    · intro hw hh hd
      refine ⟨⟨w, h, d, List.replicate (w * h * d) default⟩, ?_, rfl,
        by simp [Array3d.len], ?_⟩
      · unfold Array3d.new
        rw [if_pos ⟨hw, hh, hd⟩]
      · intro i hi
        rw [List.getElem?_replicate, if_pos (by simpa [Array3d.len] using hi)]

/-- Witness for `construct_defaults`: 2×3 and 2×3×4 constructions, plus rejected
zero extents. -/
theorem construct_defaults_witness :
    Array2d.new Nat 0 3 = none ∧ Array3d.new Nat 2 0 4 = none ∧
    (Array2d.new Nat 2 3).map Array2d.len = some 6 ∧
    (Array2d.new Nat 2 3).bind (fun a => a.array[4]?) = some 0 ∧
    (Array3d.new Nat 2 3 4).map Array3d.len = some 24 ∧
    (Array3d.new Nat 2 3 4).bind (fun a => a.array[17]?) = some 0 := by
  obtain ⟨a2, h2, hlen2, _, hslots2⟩ := (construct_defaults.1 Nat 2 3).2 (by decide) (by decide)
  obtain ⟨a3, h3, hlen3, _, hslots3⟩ :=
    (construct_defaults.2 Nat 2 3 4).2 (by decide) (by decide) (by decide)
  have hs2 : a2.array[4]? = some 0 := hslots2 4 (by rw [hlen2]; decide)
  have hs3 : a3.array[17]? = some 0 := hslots3 17 (by rw [hlen3]; decide)
  refine ⟨(construct_defaults.1 Nat 0 3).1 (Or.inl rfl),
    (construct_defaults.2 Nat 2 0 4).1 (Or.inr (Or.inl rfl)), ?_, ?_, ?_, ?_⟩
  · rw [h2]; simp [hlen2]
  · rw [h2]; simpa using hs2
  · rw [h3]; simp [hlen3]
  · rw [h3]; simpa using hs3

/-- C6: after `resize` with positive new extents, `len` equals the product of the
new extents (and the buffer has exactly that many slots); slots at raw offsets
below `min(old_len, new_len)` keep their former values and slots at raw offsets
in `[old_len, new_len)` hold the default value. -/
theorem resize_retains :
    (∀ (T : Type) [Inhabited T] (a : Array2d T) (w2 h2 : Nat),
      0 < w2 → 0 < h2 → a.array.length = a.len →
      (a.resize w2 h2).len = w2 * h2 ∧
      (a.resize w2 h2).array.length = (a.resize w2 h2).len ∧
      (∀ i, i < min a.len ((a.resize w2 h2).len) →
        (a.resize w2 h2).array[i]? = a.array[i]?) ∧
      (∀ i, a.len ≤ i → i < (a.resize w2 h2).len →
        (a.resize w2 h2).array[i]? = some default)) ∧
    (∀ (T : Type) [Inhabited T] (a : Array3d T) (w2 h2 d2 : Nat),
      0 < w2 → 0 < h2 → 0 < d2 → a.array.length = a.len →
      (a.resize w2 h2 d2).len = w2 * h2 * d2 ∧
      (a.resize w2 h2 d2).array.length = (a.resize w2 h2 d2).len ∧
      (∀ i, i < min a.len ((a.resize w2 h2 d2).len) →
        (a.resize w2 h2 d2).array[i]? = a.array[i]?) ∧
      (∀ i, a.len ≤ i → i < (a.resize w2 h2 d2).len →
        (a.resize w2 h2 d2).array[i]? = some default)) := by
  constructor
  · intro T _ a w2 h2 _ _ hinv
    refine ⟨rfl, by simp [Array2d.resize, Array2d.len, resizeWith_length], ?_, ?_⟩
    · intro i hi
      have hi1 : i < a.array.length := by
        rw [hinv]; exact lt_of_lt_of_le hi (min_le_left _ _)
      have hi2 : i < w2 * h2 := lt_of_lt_of_le hi (min_le_right _ _)
      exact resizeWith_getElem?_keep a.array (w2 * h2) default i hi1 hi2
    · intro i hle hlt
      have h1 : a.array.length ≤ i := by rw [hinv]; exact hle
      exact resizeWith_getElem?_new a.array (w2 * h2) default i h1 hlt
  · intro T _ a w2 h2 d2 _ _ _ hinv
    refine ⟨rfl, by simp [Array3d.resize, Array3d.len, resizeWith_length], ?_, ?_⟩
    · intro i hi
      have hi1 : i < a.array.length := by
        rw [hinv]; exact lt_of_lt_of_le hi (min_le_left _ _)
      have hi2 : i < w2 * h2 * d2 := lt_of_lt_of_le hi (min_le_right _ _)
      exact resizeWith_getElem?_keep a.array (w2 * h2 * d2) default i hi1 hi2
    · intro i hle hlt
      have h1 : a.array.length ≤ i := by rw [hinv]; exact hle
      exact resizeWith_getElem?_new a.array (w2 * h2 * d2) default i h1 hlt

/-- Witness for `resize_retains`: a 2×2 grid grown to 3×3 keeps its four old slots
and default-fills the new ones; a 2×2×2 grid shrunk to 1×2×3 keeps the surviving
prefix. -/
theorem resize_retains_witness :
    (0 : Nat) < 3 ∧
    ((Array2d.mk 2 2 [10, 11, 12, 13] : Array2d Nat).resize 3 3).len = 3 * 3 ∧
    ((Array2d.mk 2 2 [10, 11, 12, 13] : Array2d Nat).resize 3 3).array[2]? = some 12 ∧
    ((Array2d.mk 2 2 [10, 11, 12, 13] : Array2d Nat).resize 3 3).array[7]? = some 0 ∧
    ((Array3d.mk 2 2 2 [1, 2, 3, 4, 5, 6, 7, 8] : Array3d Nat).resize 1 2 3).len = 1 * 2 * 3 ∧
    ((Array3d.mk 2 2 2 [1, 2, 3, 4, 5, 6, 7, 8] : Array3d Nat).resize 1 2 3).array[5]? =
      some 6 := by
  obtain ⟨hl2, _, hk2, hn2⟩ := resize_retains.1 Nat (Array2d.mk 2 2 [10, 11, 12, 13]) 3 3
    (by decide) (by decide) (by decide)
  obtain ⟨hl3, _, hk3, _⟩ := resize_retains.2 Nat (Array3d.mk 2 2 2 [1, 2, 3, 4, 5, 6, 7, 8])
    1 2 3 (by decide) (by decide) (by decide) (by decide)
  refine ⟨by decide, hl2, ?_, ?_, hl3, ?_⟩
  · exact (hk2 2 (by decide)).trans (by decide)
  · exact (hn2 7 (by decide) (by decide)).trans (by decide)
  · exact (hk3 5 (by decide)).trans (by decide)

/-- C9: for a coordinate inside the container's fundamental domain (the range of
the inverse mapper: `x < height`, `y < width` in 2D; `x < width`, `y < height`,
`z < depth` in 3D), `set` succeeds, a subsequent `get` of the same coordinate
returns the written value, every other raw-offset slot is unchanged, and the
extents and `len` are unchanged. -/
theorem set_get_frame :
    (∀ (T : Type) (a : Array2d T) (x y : Nat) (v : T),
      a.array.length = a.len → x < a.height → y < a.width →
      ∃ a', a.set (x, y) v = some a' ∧
        a'.get (x, y) = some v ∧
        (∀ j, j ≠ get_1d_from_2d a.width x y → a'.array[j]? = a.array[j]?) ∧
        a'.width = a.width ∧ a'.height = a.height ∧ a'.len = a.len) ∧
    (∀ (T : Type) (a : Array3d T) (x y z : Nat) (v : T),
      a.array.length = a.len → x < a.width → y < a.height → z < a.depth →
      ∃ a', a.set (x, y, z) v = some a' ∧
        a'.get (x, y, z) = some v ∧
        (∀ j, j ≠ get_1d_from_3d a.width a.height x y z → a'.array[j]? = a.array[j]?) ∧
        a'.width = a.width ∧ a'.height = a.height ∧ a'.depth = a.depth ∧ a'.len = a.len) := by
  constructor
  · intro T a x y v hinv hx hy
    have hi : get_1d_from_2d a.width x y < a.len := get_1d_from_2d_lt hx hy
    have hi' : get_1d_from_2d a.width x y < a.array.length := by rw [hinv]; exact hi
    refine ⟨{ a with array := a.array.set (get_1d_from_2d a.width x y) v }, ?_, ?_, ?_,
      rfl, rfl, rfl⟩
    · simp only [Array2d.set, get_1d_from_2d_ivec2]
      rw [if_pos hi, if_pos hi']
    · simp only [Array2d.get, get_1d_from_2d_ivec2]
      split
      · exact List.getElem?_set_self hi'
      · next hc => exact absurd hi hc
    · intro j hj
      exact List.getElem?_set_ne (Ne.symm hj)
  · intro T a x y z v hinv hx hy hz
    have hi : get_1d_from_3d a.width a.height x y z < a.len := get_1d_from_3d_lt hx hy hz
    have hi' : get_1d_from_3d a.width a.height x y z < a.array.length := by
      rw [hinv]; exact hi
    refine ⟨{ a with array := a.array.set (get_1d_from_3d a.width a.height x y z) v }, ?_,
      ?_, ?_, rfl, rfl, rfl, rfl⟩
    · simp only [Array3d.set, get_1d_from_3d_ivec3]
      rw [if_pos hi, if_pos hi']
    · simp only [Array3d.get, get_1d_from_3d_ivec3]
      split
      · exact List.getElem?_set_self hi'
      · next hc => exact absurd hi hc
    · intro j hj
      exact List.getElem?_set_ne (Ne.symm hj)

/-- Witness for `set_get_frame`: scenario-D style updates on a 2×2 grid and a
2×2×2 grid. -/
theorem set_get_frame_witness :
    (1 : Nat) < 2 ∧
    ((Array2d.mk 2 2 [0, 0, 0, 0] : Array2d Nat).set (1, 1) 5).bind
      (fun a => a.get (1, 1)) = some 5 ∧
    ((Array2d.mk 2 2 [0, 0, 0, 0] : Array2d Nat).set (1, 1) 5).bind
      (fun a => a.array[0]?) = some 0 ∧
    ((Array2d.mk 2 2 [0, 0, 0, 0] : Array2d Nat).set (1, 1) 5).map Array2d.len = some 4 ∧
    ((Array3d.mk 2 2 2 [0, 0, 0, 0, 0, 0, 0, 0] : Array3d Nat).set (1, 0, 1) 9).bind
      (fun a => a.get (1, 0, 1)) = some 9 ∧
    ((Array3d.mk 2 2 2 [0, 0, 0, 0, 0, 0, 0, 0] : Array3d Nat).set (1, 0, 1) 9).bind
      (fun a => a.array[0]?) = some 0 := by
  obtain ⟨a2, hset2, hget2, hframe2, _, _, hlen2⟩ :=
    set_get_frame.1 Nat (Array2d.mk 2 2 [0, 0, 0, 0]) 1 1 5 (by decide) (by decide) (by decide)
  obtain ⟨a3, hset3, hget3, hframe3, _⟩ :=
    set_get_frame.2 Nat (Array3d.mk 2 2 2 [0, 0, 0, 0, 0, 0, 0, 0]) 1 0 1 9
      (by decide) (by decide) (by decide) (by decide)
  refine ⟨by decide, ?_, ?_, ?_, ?_, ?_⟩
  · rw [hset2]; simpa using hget2
  · rw [hset2]; simpa using (hframe2 0 (by decide)).trans (by decide)
  · rw [hset2]; simpa using hlen2
  · rw [hset3]; simpa using hget3
  · rw [hset3]; simpa using (hframe3 0 (by decide)).trans (by decide)

/-- C10: the containers bounds-check only the computed linear offset.  In 2D,
whenever `width*x + y < len()` the accessors succeed — even when `y ≥ width` —
and `get` reads the slot at flat offset `width*x + y`; moreover the distinct
coordinates `(0, width)` and `(1, 0)` always denote the same flat offset, hence
access the same cell. -/
theorem offset_only_bounds_check :
    (∀ (T : Type) (a : Array2d T) (x y : Nat) (v : T),
      a.array.length = a.len → get_1d_from_2d a.width x y < a.len →
      a.get (x, y) = a.array[get_1d_from_2d a.width x y]? ∧
      (a.get (x, y)).isSome = true ∧
      a.get_mut (x, y) = some (get_1d_from_2d a.width x y) ∧
      (a.set (x, y) v).isSome = true) ∧
    (∀ (T : Type) (a : Array2d T), a.get (0, a.width) = a.get (1, 0)) := by
  constructor
  · intro T a x y v hinv hi
    have hi' : get_1d_from_2d a.width x y < a.array.length := by rw [hinv]; exact hi
    refine ⟨?_, ?_, ?_, ?_⟩
    · simp only [Array2d.get, get_1d_from_2d_ivec2]
      rw [if_pos hi]
    · simp only [Array2d.get, get_1d_from_2d_ivec2]
      rw [if_pos hi, List.getElem?_eq_getElem hi']
      rfl
    · simp only [Array2d.get_mut, get_1d_from_2d_ivec2]
      rw [if_pos hi, if_pos hi']
    · simp only [Array2d.set, get_1d_from_2d_ivec2]
      rw [if_pos hi, if_pos hi']
      rfl
  · intro T a
    simp [Array2d.get, get_1d_from_2d_ivec2, get_1d_from_2d]

/-- Witness for `offset_only_bounds_check`: in a 2×2 grid holding `[3, 4, 5, 6]`,
the coordinate `(0, 2)` has `y = 2 ≥ width = 2` yet offset `2 < 4`, so `get`
returns the slot at offset 2 and aliases the valid coordinate `(1, 0)`. -/
theorem offset_only_bounds_check_witness :
    get_1d_from_2d 2 0 2 < (Array2d.mk 2 2 [3, 4, 5, 6] : Array2d Nat).len ∧
    (2 : Nat) ≥ 2 ∧
    (Array2d.mk 2 2 [3, 4, 5, 6] : Array2d Nat).get (0, 2) = some 5 ∧
    (Array2d.mk 2 2 [3, 4, 5, 6] : Array2d Nat).get_mut (0, 2) = some 2 ∧
    (Array2d.mk 2 2 [3, 4, 5, 6] : Array2d Nat).get (0, 2) =
      (Array2d.mk 2 2 [3, 4, 5, 6] : Array2d Nat).get (1, 0) := by
  have h := offset_only_bounds_check.1 Nat (Array2d.mk 2 2 [3, 4, 5, 6]) 0 2 0
    (by decide) (by decide)
  have h2 := offset_only_bounds_check.2 Nat (Array2d.mk 2 2 [3, 4, 5, 6])
  exact ⟨by decide, by decide, h.1.trans (by decide), h.2.2.1.trans (by decide), h2⟩

/-- C4, counterexample to the claim as stated: in a 2×2 grid the coordinate
`(0, 2)` lies outside both extents (`2 ≥ width = 2`, `2 ≥ height = 2`), yet
`get` does not fail — its offset `2*0 + 2 = 2` passes the length check and it
returns the value `7` previously stored in the *different* valid cell `(1, 0)`
(both coordinates map to raw offset 2). -/
theorem out_of_range_aliases :
    ((Array2d.new Nat 2 2).bind (fun a => a.set (1, 0) 7)).bind (fun a => a.get (0, 2)) =
      some 7 ∧
    ((Array2d.new Nat 2 2).bind (fun a => a.set (1, 0) 7)).bind (fun a => a.get (1, 0)) =
      some 7 := by
  decide

/-- C4 (amended): the accessors reject exactly the accesses whose *computed linear
offset* is out of range.  `get`, `get_mut` and `set` fail fatally when the mapper
offset of the (non-negative) coordinate is `≥ len()`, and flat index access fails
when the raw offset is `≥ len()`; but an out-of-range coordinate whose computed
offset is `< len()` is silently satisfied by accessing the slot at that offset —
the slot of a different valid coordinate. -/
theorem offset_bounds_exactness :
    (∀ (T : Type) (a : Array2d T) (x y : Nat) (v : T),
      (a.len ≤ get_1d_from_2d a.width x y →
        a.get (x, y) = none ∧ a.get_mut (x, y) = none ∧ a.set (x, y) v = none) ∧
      (get_1d_from_2d a.width x y < a.len →
        a.get (x, y) = a.array[get_1d_from_2d a.width x y]?)) ∧
    (∀ (T : Type) (a : Array2d T) (i : Nat), a.len ≤ i → a.index i = none) ∧
    (∀ (T : Type) (a : Array3d T) (x y z : Nat) (v : T),
      (a.len ≤ get_1d_from_3d a.width a.height x y z →
        a.get (x, y, z) = none ∧ a.get_mut (x, y, z) = none ∧ a.set (x, y, z) v = none) ∧
      (get_1d_from_3d a.width a.height x y z < a.len →
        a.get (x, y, z) = a.array[get_1d_from_3d a.width a.height x y z]?)) ∧
    (∀ (T : Type) (a : Array3d T) (i : Nat), a.len ≤ i → a.index i = none) := by
  refine ⟨?_, ?_, ?_, ?_⟩
  · intro T a x y v
    constructor
    · intro hge
      have hn : ¬ get_1d_from_2d a.width x y < a.len := by omega
      refine ⟨?_, ?_, ?_⟩ <;>
        simp only [Array2d.get, Array2d.get_mut, Array2d.set, get_1d_from_2d_ivec2] <;>
        rw [if_neg hn]
    · intro hlt
      simp only [Array2d.get, get_1d_from_2d_ivec2]
      rw [if_pos hlt]
  · intro T a i hge
    have hn : ¬ i < a.len := by omega
    simp only [Array2d.index]
    rw [if_neg hn]
  · intro T a x y z v
    constructor
    · intro hge
      have hn : ¬ get_1d_from_3d a.width a.height x y z < a.len := by omega
      refine ⟨?_, ?_, ?_⟩ <;>
        simp only [Array3d.get, Array3d.get_mut, Array3d.set, get_1d_from_3d_ivec3] <;>
        rw [if_neg hn]
    · intro hlt
      simp only [Array3d.get, get_1d_from_3d_ivec3]
      rw [if_pos hlt]
  · intro T a i hge
    have hn : ¬ i < a.len := by omega
    simp only [Array3d.index]
    rw [if_neg hn]

/-- Witness for `offset_bounds_exactness`: a 2×2 grid rejects coordinate `(5, 0)`
(offset 10) and flat offset 4, serves `(0, 2)` (offset 2) from the buffer; a
2×2×2 grid rejects `(0, 0, 3)` (offset 12) and serves `(1, 1, 1)` (offset 7). -/
theorem offset_bounds_exactness_witness :
    (Array2d.mk 2 2 [3, 4, 5, 6] : Array2d Nat).len ≤ get_1d_from_2d 2 5 0 ∧
    (Array2d.mk 2 2 [3, 4, 5, 6] : Array2d Nat).get (5, 0) = none ∧
    (Array2d.mk 2 2 [3, 4, 5, 6] : Array2d Nat).set (5, 0) 9 = none ∧
    (Array2d.mk 2 2 [3, 4, 5, 6] : Array2d Nat).index 4 = none ∧
    (Array2d.mk 2 2 [3, 4, 5, 6] : Array2d Nat).get (0, 2) = [3, 4, 5, 6][2]? ∧
    (Array3d.mk 2 2 2 [1, 2, 3, 4, 5, 6, 7, 8] : Array3d Nat).get (0, 0, 3) = none ∧
    (Array3d.mk 2 2 2 [1, 2, 3, 4, 5, 6, 7, 8] : Array3d Nat).index 8 = none ∧
    (Array3d.mk 2 2 2 [1, 2, 3, 4, 5, 6, 7, 8] : Array3d Nat).get (1, 1, 1) =
      [1, 2, 3, 4, 5, 6, 7, 8][7]? := by
  have h2 := offset_bounds_exactness.1 Nat (Array2d.mk 2 2 [3, 4, 5, 6]) 5 0 9
  have h2i := offset_bounds_exactness.2.1 Nat (Array2d.mk 2 2 [3, 4, 5, 6]) 4 (by decide)
  have h2a := (offset_bounds_exactness.1 Nat (Array2d.mk 2 2 [3, 4, 5, 6]) 0 2 9).2
    (by decide)
  have h3 := (offset_bounds_exactness.2.2.1 Nat
    (Array3d.mk 2 2 2 [1, 2, 3, 4, 5, 6, 7, 8]) 0 0 3 9).1 (by decide)
  have h3i := offset_bounds_exactness.2.2.2 Nat
    (Array3d.mk 2 2 2 [1, 2, 3, 4, 5, 6, 7, 8]) 8 (by decide)
  have h3a := (offset_bounds_exactness.2.2.1 Nat
    (Array3d.mk 2 2 2 [1, 2, 3, 4, 5, 6, 7, 8]) 1 1 1 9).2 (by decide)
  obtain ⟨hget, _, hset⟩ := h2.1 (by decide)
  exact ⟨by decide, hget, hset, h2i, h2a, h3.1, h3i, h3a⟩

/-- C1 fails on the code: running the mutable iterator of a 2×2 grid (and of a
2×2×2 grid) yields one item per slot, but the coordinate attached to the `i`-th
item is the inverse mapping of `i + 1` (not `i` — the code reads the cursor
*after* incrementing it), and every yielded reference points to the slot at raw
offset 0 (`&mut *pt` with `pt` the buffer base pointer, never offset by the
cursor).  So the first item of the 2×2 run is `((0, 1), 0)` instead of
`((0, 0), 0)`, the last coordinate `(2, 0)` (resp. `(0, 0, 2)` in 3D) is not even
a valid cell, and all the `len()` exclusive references alias the same slot. -/
theorem mut_iter_bug :
    (Array2d.mk 2 2 (List.replicate 4 (0 : Nat))).iter_mut.run =
      [((0, 1), 0), ((1, 0), 0), ((1, 1), 0), ((2, 0), 0)] ∧
    (Array3d.mk 2 2 2 (List.replicate 8 (0 : Nat))).iter_mut.run =
      [((1, 0, 0), 0), ((0, 1, 0), 0), ((1, 1, 0), 0), ((0, 0, 1), 0),
       ((1, 0, 1), 0), ((0, 1, 1), 0), ((1, 1, 1), 0), ((0, 0, 2), 0)] := by
  decide

/-- C2 fails on the code: unlike `new`, `resize` performs no extent validation at
all.  Resizing a successfully constructed 2×2 grid to width 0 (and a 2×2×2 grid
to width 0) returns normally with a zero extent and `len() = 0`, violating the
claimed "extents stay strictly positive" invariant. -/
theorem resize_zero_extent_accepted :
    ((Array2d.new Nat 2 2).map (fun a => a.resize 0 3)).map Array2d.width = some 0 ∧
    ((Array2d.new Nat 2 2).map (fun a => a.resize 0 3)).map Array2d.len = some 0 ∧
    ((Array3d.new Nat 2 2 2).map (fun a => a.resize 0 3 3)).map Array3d.width = some 0 ∧
    ((Array3d.new Nat 2 2 2).map (fun a => a.resize 0 3 3)).map Array3d.len = some 0 := by
  decide

end FlatArrays
